import Mathlib

/-!
Verification of the stress-detection backend (`src/Code/backend/app.py`).

The Python code is shallowly embedded over `ℚ`.  Python floats become
rationals; the transcendental library functions it calls (`math.hypot`,
`math.exp`, `np.tanh`) are taken as explicit function parameters, since
their numeric values never influence the properties below (every use is
guarded by an explicit clamp or threshold in the source).  Outputs of the
external detectors (dlib face detector + landmark predictor, OpenCV Haar
cascades, the Canny edge-density measurement, the mini_XCEPTION emotion
classifier) are inputs of the embedded functions, mirroring the call
contracts in the source.
-/

namespace StressDetection

/-- The `Summary` payload `{level, label, faces}` published by the pipeline. -/
structure Summary where
  level : ℚ
  label : String
  faces : ℕ
deriving DecidableEq, Repr

/-- `level_to_label` (app.py lines 73-78): threshold level into Low/Moderate/High. -/
def level_to_label (level : ℚ) : String :=
  if level ≥ 3/4 then "High"
  else if level ≥ 7/20 then "Moderate"
  else "Low"

/-- Python's `max(0.0, min(1.0, x))` clamp, used throughout the source. -/
def clamp01 (x : ℚ) : ℚ := max 0 (min 1 x)

/-- `np.max` over a (always nonempty at use sites) list: fold of `max` seeded
with the head (`headD 0` is only a total-function default). -/
def npMax (l : List ℚ) : ℚ := l.foldl max (l.headD 0)

/-- `np.min` over a nonempty list, analogous to `npMax`. -/
def npMin (l : List ℚ) : ℚ := l.foldl min (l.headD 0)

/-- Python's `l[-n:]`: the last `n` elements (the whole list when shorter). -/
def lastN (n : ℕ) (l : List α) : List α := l.drop (l.length - n)

/-- `_HISTORY_MAX_PER_FEATURE` (app.py line 62). -/
def HISTORY_MAX_PER_FEATURE : ℕ := 300

/-- `_EMA_ALPHA` (app.py line 66). -/
def EMA_ALPHA : ℚ := 3/10

/-- The `_feature_histories` dict: feature key to rolling history
(`dict.get(key, [])` semantics: an absent key reads as `[]`). -/
def FeatHists := String → List ℚ

/-- The empty `_feature_histories` dict at process start. -/
def initHists : FeatHists := fun _ => []

/-- The history update of `_normalize_points` (app.py lines 147-150):
append the new value, then keep only the last 300 entries
(`history = history[-300:]` when over the bound). -/
def updatedHistory (hists : FeatHists) (value : ℚ) (feature_key : String) : List ℚ :=
  if (hists feature_key ++ [value]).length > HISTORY_MAX_PER_FEATURE then
    lastN HISTORY_MAX_PER_FEATURE (hists feature_key ++ [value])
  else hists feature_key ++ [value]

/-- `_normalize_points` (app.py lines 141-164): append `value` to the
feature's rolling history, truncate the history to the last 300 entries,
store it back, then either report warm-up (`(0.5, "initializing")` when
fewer than 5 samples or a degenerate range) or the tanh-mapped, clamped
deviation from the rolling minimum.  The `np.isnan` guard of line 161 has
no counterpart over `ℚ`, where no NaN value exists.
Returns (`(level, label)`, updated histories). -/
def normalize_points (tanh : ℚ → ℚ) (hists : FeatHists) (value : ℚ)
    (feature_key : String) : (ℚ × String) × FeatHists :=
  let history := updatedHistory hists value feature_key
  let hists' : FeatHists := fun k => if k = feature_key then history else hists k
  if history.length < 5 ∨ npMax history = npMin history then
    ((1/2, "initializing"), hists')
  else
    let vmin := npMin history
    let vmax := npMax history
    let normalized_value := |value - vmin| / max |vmax - vmin| (1/1000000)
    let stress_value := clamp01 (tanh normalized_value)
    let label := if stress_value ≥ 3/4 then "High"
      else if stress_value ≥ 7/20 then "Moderate" else "Low"
    ((stress_value, label), hists')

/-- An OpenCV / dlib bounding box `(x, y, w, h)`. -/
structure Rect where
  x : ℤ
  y : ℤ
  w : ℤ
  h : ℤ
deriving DecidableEq, Repr

/-- Stable insertion of a rect into a list ordered by `x`; `foldr`ing it is
extensionally Python's stable `sorted(eyes, key=lambda e: e[0])`. -/
def insertByX (e : Rect) : List Rect → List Rect
  | [] => [e]
  | f :: fs => if e.x < f.x then e :: f :: fs else f :: insertByX e fs

/-- Python's `sorted(eyes, key=lambda e: e[0])` (stable sort on the x field). -/
def sortByX (l : List Rect) : List Rect := l.foldr insertByX []

/-- `_heuristic_from_opencv` (app.py lines 104-134).  The Haar-cascade
detections (`faces`, `eyes`) and the Canny edge-density measurement
(`density = edges.mean()/255`) are external inputs; `hypot` and `exp` stand
for `math.hypot` and `math.exp`. -/
def heuristic_from_opencv (hypot : ℚ → ℚ → ℚ) (exp : ℚ → ℚ)
    (faces : List Rect) (eyes : List Rect) (density : ℚ) : Summary :=
  match faces with
  | [] => ⟨0, "Low", 0⟩
  | f :: _ =>
    let w : ℚ := f.w
    let scale : ℚ :=
      if eyes.length ≥ 2 then
        match (sortByX eyes).take 2 with
        | e1 :: e2 :: _ =>
          let c1x : ℚ := (e1.x : ℚ) + (e1.w : ℚ) / 2
          let c1y : ℚ := (e1.y : ℚ) + (e1.h : ℚ) / 2
          let c2x : ℚ := (e2.x : ℚ) + (e2.w : ℚ) / 2
          let c2y : ℚ := (e2.y : ℚ) + (e2.h : ℚ) / 2
          let eye_dist := hypot (c1x - c2x) (c1y - c2y)
          max eye_dist 1
        | _ => max (w * (1/2)) 1
      else max (w * (1/2)) 1
    let norm := min (max (density * (w / scale) * (1/2)) 0) 3
    let level := clamp01 (exp (-norm))
    ⟨level, level_to_label level, faces.length⟩

/-- A dlib detection: the bounding box from `face_utils.rect_to_bb` together
with the 68 landmark points the shape predictor produced for it
(`face_utils.shape_to_np`, integer pixel coordinates). -/
structure Detection where
  bb : Rect
  shape : List (ℤ × ℤ)
deriving DecidableEq, Repr

/-- `_euclidean` (app.py lines 137-138); `hypot` stands for `math.hypot`. -/
def euclidean (hypot : ℚ → ℚ → ℚ) (p1 p2 : ℤ × ℤ) : ℚ :=
  hypot ((p1.1 : ℚ) - (p2.1 : ℚ)) ((p1.2 : ℚ) - (p2.2 : ℚ))

/-- Python slice `l[a:b]` (for `0 ≤ a ≤ b`). -/
def pySlice (l : List α) (a b : ℕ) : List α := (l.take b).drop a

/-- The inner `_ear` of `_accurate_from_dlib` (app.py lines 219-228):
eye aspect ratio from 6 ordered points, with 0.3 defaults for a malformed
point set or a degenerate horizontal span. -/
def earOf (hypot : ℚ → ℚ → ℚ) (eye_pts : List (ℤ × ℤ)) : ℚ :=
  if eye_pts.length ≠ 6 then 3/10
  else
    let a := euclidean hypot (eye_pts.getD 1 (0, 0)) (eye_pts.getD 5 (0, 0))
    let b := euclidean hypot (eye_pts.getD 2 (0, 0)) (eye_pts.getD 4 (0, 0))
    let c := euclidean hypot (eye_pts.getD 0 (0, 0)) (eye_pts.getD 3 (0, 0))
    if c ≤ 1/1000000 then 3/10 else (a + b) / (2 * c)

/-- The inner `_mar` of `_accurate_from_dlib` (app.py lines 239-254):
mouth aspect ratio over the outer-mouth slice.  The source wraps the index
accesses (largest index 10) in `try/except` returning 0.4; a too-short
slice therefore yields 0.4, as does a degenerate horizontal width. -/
def marOf (hypot : ℚ → ℚ → ℚ) (mouth : List (ℤ × ℤ)) : ℚ :=
  if mouth.length < 11 then 2/5
  else
    let p48 := mouth.getD 0 (0, 0)
    let p54 := mouth.getD 6 (0, 0)
    let p50 := mouth.getD 2 (0, 0)
    let p58 := mouth.getD 10 (0, 0)
    let p52 := mouth.getD 4 (0, 0)
    let p56 := mouth.getD 8 (0, 0)
    let p51 := mouth.getD 3 (0, 0)
    let p57 := mouth.getD 9 (0, 0)
    let horiz := euclidean hypot p48 p54
    let vert := (euclidean hypot p50 p58 + euclidean hypot p52 p56 +
      euclidean hypot p51 p57) / 3
    if horiz ≤ 1/1000000 then 2/5 else vert / horiz

/-- The emotion adjustment of app.py lines 296-299: labels `scared`/`sad`
raise the fused level to at least 0.75, any other label leaves it alone. -/
def emotionAdjust (emotion_label : String) (level_fused : ℚ) : ℚ :=
  if emotion_label = "scared" ∨ emotion_label = "sad" then max level_fused (3/4)
  else level_fused

/-- The persistent estimator state: `_feature_histories`, `_ema_level`,
`_frame_count` and `_last_emotion_label` (app.py lines 61-70).  The
display-only overlay caches (`_last_face_bb`, `_last_left_eb`,
`_last_right_eb`, `_last_shape_points`) are not modelled. -/
structure EstState where
  feature_histories : FeatHists
  ema_level : Option ℚ
  frame_count : ℕ
  last_emotion_label : String

/-- The throttled emotion-classifier block of `_accurate_from_dlib`
(app.py lines 277-294).  `roiNonempty` is whether the cropped grayscale
face region is nonempty (`roi.size != 0`); `classifierResult` is
`some label` when resize + `img_to_array` + `predict` + argmax succeed with
that label, `none` when any of them raises (the `except` then restores the
sticky label; the counter increment, already committed, persists).
Returns (label used this frame, new `_frame_count`, new sticky label). -/
def emotionGateStep (roiNonempty : Bool) (classifierResult : Option String)
    (frame_count : ℕ) (last_label : String) : String × ℕ × String :=
  if roiNonempty then
    let fc := (frame_count + 1) % 1000000
    if fc % 5 = 0 ∨ last_label = "unknown" then
      match classifierResult with
      | some lbl => (lbl, fc, lbl)
      | none => (last_label, fc, last_label)
    else (last_label, fc, last_label)
  else (last_label, frame_count, last_label)

/-- `_accurate_from_dlib` (app.py lines 169-311), from the point where the
external providers have answered: `detections` is the dlib detector output
paired with the shape predictor's landmarks, `roiNonempty` and
`classifierResult` feed the emotion block, `st` is the persistent state.
The model-availability guard of lines 170-172 (fallback to the heuristic
path) is the caller's dispatch and is not part of this function. -/
def accurate_from_dlib (hypot : ℚ → ℚ → ℚ) (tanh : ℚ → ℚ)
    (detections : List Detection) (roiNonempty : Bool)
    (classifierResult : Option String) (st : EstState) : Summary × EstState :=
  match detections with
  | [] => (⟨0, "Low", 0⟩, st)
  | rect :: _ =>
    let shape_np := rect.shape
    let right_eb := pySlice shape_np 17 22
    let left_eb := pySlice shape_np 22 27
    if right_eb.length = 0 ∨ left_eb.length = 0 then
      (⟨0, "Low", detections.length⟩, st)
    else
      let distq := euclidean hypot (left_eb.getLastD (0, 0)) (right_eb.headD (0, 0))
      let face_w : ℚ := max 1 (rect.bb.w : ℚ)
      let face_h : ℚ := max 1 (rect.bb.h : ℚ)
      let eb_norm := distq / face_w
      let eb_metric := clamp01 (1 - eb_norm)
      let r1 := normalize_points tanh st.feature_histories eb_metric "eyebrow"
      let l_eb := r1.1.1
      let left_eye := pySlice shape_np 42 48
      let right_eye := pySlice shape_np 36 42
      let ear_l := earOf hypot left_eye
      let ear_r := earOf hypot right_eye
      let eye_metric := clamp01 (1 - min ear_l ear_r)
      let r2 := normalize_points tanh r1.2 eye_metric "eyes"
      let l_eye := r2.1.1
      let mouth := pySlice shape_np 48 68
      let mar := marOf hypot mouth
      let mouth_metric := clamp01 mar
      let r3 := normalize_points tanh r2.2 mouth_metric "mouth"
      let l_mouth := r3.1.1
      let chin_dist := if shape_np.length < 34 then 3/10
        else euclidean hypot (shape_np.getD 33 (0, 0)) (shape_np.getD 8 (0, 0)) / face_h
      let chin_metric := clamp01 chin_dist
      let r4 := normalize_points tanh r3.2 chin_metric "chin"
      let l_chin := r4.1.1
      let level_fused := (35/100) * l_eb + (30/100) * l_eye +
        (25/100) * l_mouth + (10/100) * l_chin
      let g := emotionGateStep roiNonempty classifierResult
        st.frame_count st.last_emotion_label
      let level_adj := emotionAdjust g.1 level_fused
      let ema : ℚ := match st.ema_level with
        | none => level_adj
        | some prev => EMA_ALPHA * level_adj + (1 - EMA_ALPHA) * prev
      let level := clamp01 ema
      (⟨level, level_to_label level, detections.length⟩,
        ⟨r4.2, some ema, g.2.1, g.2.2⟩)

/-- The per-process session state of the Flask app: `cap` (the opened
capture device, modelled as the index it was opened on), `running`,
`cam_index` (app.py lines 35-39), plus a count of capture-worker threads
spawned so far (modelling `threading.Thread(...).start()` effects). -/
structure SessState where
  cap : Option ℤ
  running : Bool
  cam_index : ℤ
  worker_count : ℕ
deriving DecidableEq, Repr

/-- The JSON responses of `POST /api/start` (app.py lines 413-429), paired
with their HTTP code.  The `dlib_ready`/`dlib_error` fields report external
model availability and are not modelled. -/
inductive StartResp where
  | already_running (index : ℤ) (code : ℕ)
  | started (index : ℤ) (code : ℕ)
  | open_failed (index : ℤ) (code : ℕ)
deriving DecidableEq, Repr

/-- `start_camera` (app.py lines 413-429), inside the `cam_lock` critical
section.  `openSucceeds i` is whether `cv2.VideoCapture(i).isOpened()`;
`reqIndex` is the optional `index` of the request body (defaulting to the
current `cam_index`). -/
def start_camera (openSucceeds : ℤ → Bool) (reqIndex : Option ℤ)
    (st : SessState) : StartResp × SessState :=
  let idx := reqIndex.getD st.cam_index
  if st.running then (.already_running st.cam_index 200, st)
  else if openSucceeds idx then
    (.started idx 200, ⟨some idx, true, idx, st.worker_count + 1⟩)
  else (.open_failed idx 400, st)

/-- The emission logic of the `/api/stream` SSE generator (app.py lines
452-461): starting from `last = None`, at each 5 Hz poll of
`latest_summary` a payload is yielded only when it differs from `last`,
which is then updated.  `sseEmits last polls` is the list of payloads
yielded over the polled sequence `polls`. -/
def sseEmits (last : Option Summary) : List Summary → List Summary
  | [] => []
  | s :: rest =>
    if some s ≠ last then s :: sseEmits (some s) rest else sseEmits last rest

/-- Folding a sequence of `_normalize_points` calls (each a raw value paired
with its feature key) over the feature-history state, keeping only the
state they thread. -/
def applyCalls (tanh : ℚ → ℚ) : List (ℚ × String) → FeatHists → FeatHists
  | [], h => h
  | c :: rest, h => applyCalls tanh rest ((normalize_points tanh h c.1 c.2).2)

/-- The raw values a call sequence inserts under feature key `k`, in order. -/
def insertedFor (k : String) (calls : List (ℚ × String)) : List ℚ :=
  (calls.filter (fun c => c.2 == k)).map (fun c => c.1)

/-! ### Small list lemmas about `lastN`, `npMax`, `npMin` -/

theorem lastN_length_le (n : ℕ) (l : List α) : (lastN n l).length ≤ n := by
  simp only [lastN, List.length_drop]
  omega

theorem lastN_of_length_le {n : ℕ} {l : List α} (h : l.length ≤ n) : lastN n l = l := by
  simp [lastN, Nat.sub_eq_zero_of_le h]

theorem lastN_lastN_append (n : ℕ) (l t : List α) :
    lastN n (lastN n l ++ t) = lastN n (l ++ t) := by
  simp only [lastN, List.length_append, List.length_drop,
    List.drop_append_eq_append_drop, List.drop_drop]
  congr 2 <;> omega

theorem foldl_max_init_le (l : List ℚ) : ∀ a : ℚ, a ≤ l.foldl max a := by
  induction l with
  | nil => intro a; exact le_refl a
  | cons b t ih => intro a; exact le_trans (le_max_left a b) (ih (max a b))

theorem le_foldl_max (l : List ℚ) : ∀ a x : ℚ, x ∈ l → x ≤ l.foldl max a := by
  induction l with
  | nil => intro a x hx; cases hx
  | cons b t ih =>
    intro a x hx
    rcases List.mem_cons.mp hx with h | h
    · subst h
      exact le_trans (le_max_right a x) (foldl_max_init_le t (max a x))
    · exact ih (max a b) x h

theorem foldl_min_le_init (l : List ℚ) : ∀ a : ℚ, l.foldl min a ≤ a := by
  induction l with
  | nil => intro a; exact le_refl a
  | cons b t ih => intro a; exact le_trans (ih (min a b)) (min_le_left a b)

theorem foldl_min_le (l : List ℚ) : ∀ a x : ℚ, x ∈ l → l.foldl min a ≤ x := by
  induction l with
  | nil => intro a x hx; cases hx
  | cons b t ih =>
    intro a x hx
    rcases List.mem_cons.mp hx with h | h
    · subst h
      exact le_trans (foldl_min_le_init t (min a x)) (min_le_right a x)
    · exact ih (min a b) x h

theorem le_npMax {l : List ℚ} {x : ℚ} (hx : x ∈ l) : x ≤ npMax l :=
  le_foldl_max l _ x hx

theorem npMin_le {l : List ℚ} {x : ℚ} (hx : x ∈ l) : npMin l ≤ x :=
  foldl_min_le l _ x hx

theorem foldl_max_const (c : ℚ) :
    ∀ t : List ℚ, (∀ x ∈ t, x = c) → t.foldl max c = c := by
  intro t
  induction t with
  | nil => intro _; rfl
  | cons b t ih =>
    intro h
    have hb : b = c := h b (List.mem_cons_self b t)
    simp only [List.foldl_cons, hb, max_self]
    exact ih fun x hx => h x (List.mem_cons_of_mem b hx)

theorem foldl_min_const (c : ℚ) :
    ∀ t : List ℚ, (∀ x ∈ t, x = c) → t.foldl min c = c := by
  intro t
  induction t with
  | nil => intro _; rfl
  | cons b t ih =>
    intro h
    have hb : b = c := h b (List.mem_cons_self b t)
    simp only [List.foldl_cons, hb, min_self]
    exact ih fun x hx => h x (List.mem_cons_of_mem b hx)

theorem npMax_const {l : List ℚ} {c : ℚ} (hne : l ≠ []) (h : ∀ x ∈ l, x = c) :
    npMax l = c := by
  cases l with
  | nil => exact absurd rfl hne
  | cons b t =>
    have hb : b = c := h b (List.mem_cons_self b t)
    simp only [npMax, List.headD_cons, List.foldl_cons, hb, max_self]
    exact foldl_max_const c t fun x hx => h x (List.mem_cons_of_mem b hx)

theorem npMin_const {l : List ℚ} {c : ℚ} (hne : l ≠ []) (h : ∀ x ∈ l, x = c) :
    npMin l = c := by
  cases l with
  | nil => exact absurd rfl hne
  | cons b t =>
    have hb : b = c := h b (List.mem_cons_self b t)
    simp only [npMin, List.headD_cons, List.foldl_cons, hb, min_self]
    exact foldl_min_const c t fun x hx => h x (List.mem_cons_of_mem b hx)

theorem all_eq_of_npMax_eq_npMin {l : List ℚ} (h : npMax l = npMin l) :
    ∀ x ∈ l, x = npMax l :=
  fun x hx => le_antisymm (le_npMax hx) (h ▸ npMin_le hx)

/-! ### Structural lemmas about the embedded functions -/

theorem clamp01_nonneg (x : ℚ) : 0 ≤ clamp01 x := le_max_left 0 _

theorem clamp01_le_one (x : ℚ) : clamp01 x ≤ 1 :=
  max_le (by norm_num) (min_le_left 1 x)

theorem updatedHistory_eq_lastN (hists : FeatHists) (v : ℚ) (k : String) :
    updatedHistory hists v k = lastN HISTORY_MAX_PER_FEATURE (hists k ++ [v]) := by
  unfold updatedHistory
  split
  · rfl
  · next h => exact (lastN_of_length_le (by omega)).symm

theorem normalize_points_snd (tanh : ℚ → ℚ) (hists : FeatHists) (v : ℚ) (k : String) :
    (normalize_points tanh hists v k).2 =
      fun k' => if k' = k then updatedHistory hists v k else hists k' := by
  simp only [normalize_points]
  split <;> rfl

theorem insertedFor_cons (k : String) (c : ℚ × String) (rest : List (ℚ × String)) :
    insertedFor k (c :: rest) =
      if c.2 = k then c.1 :: insertedFor k rest else insertedFor k rest := by
  by_cases h : c.2 = k <;> simp [insertedFor, h]

theorem applyCalls_key (tanh : ℚ → ℚ) (calls : List (ℚ × String)) :
    ∀ (h : FeatHists) (k : String), (h k).length ≤ HISTORY_MAX_PER_FEATURE →
      applyCalls tanh calls h k =
        lastN HISTORY_MAX_PER_FEATURE (h k ++ insertedFor k calls) := by
  induction calls with
  | nil =>
    intro h k hk
    simp only [applyCalls, insertedFor, List.filter_nil, List.map_nil, List.append_nil]
    exact (lastN_of_length_le hk).symm
  | cons c rest ih =>
    intro h k hk
    simp only [applyCalls]
    rw [insertedFor_cons]
    have hsnd := normalize_points_snd tanh h c.1 c.2
    by_cases hck : c.2 = k
    · subst hck
      have hupd : (normalize_points tanh h c.1 c.2).2 c.2 =
          lastN HISTORY_MAX_PER_FEATURE (h c.2 ++ [c.1]) := by
        rw [hsnd]
        simp [updatedHistory_eq_lastN]
      rw [ih _ c.2 (by rw [hupd]; exact lastN_length_le _ _), hupd, if_pos rfl,
        lastN_lastN_append, List.append_assoc]
      rfl
    · have hupd : (normalize_points tanh h c.1 c.2).2 k = h k := by
        rw [hsnd]
        exact if_neg fun hc => hck hc.symm
      rw [ih _ k (by rw [hupd]; exact hk), hupd, if_neg hck]

/-! ### Claim theorems -/

/-- C2: `level_to_label` returns `"High"` iff `level ≥ 0.75`, `"Moderate"`
iff `0.35 ≤ level < 0.75`, and `"Low"` iff `level < 0.35`; in particular at
the exact boundary values 0.75 and 0.35 it returns `"High"` and
`"Moderate"` respectively. -/
theorem level_to_label_thresholds (l : ℚ) :
    (level_to_label l = "High" ↔ 3/4 ≤ l) ∧
    (level_to_label l = "Moderate" ↔ 7/20 ≤ l ∧ l < 3/4) ∧
    (level_to_label l = "Low" ↔ l < 7/20) ∧
    level_to_label (3/4) = "High" ∧ level_to_label (7/20) = "Moderate" := by
  refine ⟨?_, ?_, ?_, by norm_num [level_to_label], by norm_num [level_to_label]⟩ <;>
    unfold level_to_label <;> split_ifs with h1 h2 <;> simp_all <;> linarith

/-- C3: on a frame with zero detections the accurate path returns the
Summary `{level: 0, label: "Low", faces: 0}` and leaves the whole
persistent estimator state — in particular the EMA smoothing state —
untouched, whatever its prior value. -/
theorem zero_detections_identity (hypot : ℚ → ℚ → ℚ) (tanh : ℚ → ℚ)
    (roiNonempty : Bool) (classifierResult : Option String) (st : EstState) :
    accurate_from_dlib hypot tanh [] roiNonempty classifierResult st =
      (⟨0, "Low", 0⟩, st) := rfl

/-- C4: the emotion override replaces the fused level by
`max(level, 0.75)` exactly when the emotion label is `scared` or `sad`
(raising any level below 0.75 to exactly 0.75 and leaving levels at or
above 0.75 unchanged), leaves the level unchanged on any other label, and
never lowers the estimate. -/
theorem emotion_override_spec (lbl : String) (l : ℚ) :
    emotionAdjust lbl l =
      (if lbl = "scared" ∨ lbl = "sad" then max l (3/4) else l) ∧
    emotionAdjust lbl l =
      (if lbl = "scared" ∨ lbl = "sad" then (if l < 3/4 then 3/4 else l) else l) ∧
    l ≤ emotionAdjust lbl l := by
  refine ⟨rfl, ?_, ?_⟩
  · unfold emotionAdjust
    split_ifs with h h2
    · exact max_eq_right (by linarith)
    · exact max_eq_left (by linarith)
    · rfl
  · unfold emotionAdjust
    split_ifs with h
    · exact le_max_left l _
    · exact le_refl l

/-- C1: on every frame, whichever path produced it (accurate path with any
number of detections — including the zero-detection early return — or the
heuristic fallback), the `level` of the returned Summary lies in `[0, 1]`. -/
theorem summary_level_in_unit (hypot : ℚ → ℚ → ℚ) (tanh exp : ℚ → ℚ)
    (detections : List Detection) (roiNonempty : Bool) (cls : Option String)
    (st : EstState) (faces eyes : List Rect) (density : ℚ) :
    (0 ≤ (accurate_from_dlib hypot tanh detections roiNonempty cls st).1.level ∧
      (accurate_from_dlib hypot tanh detections roiNonempty cls st).1.level ≤ 1) ∧
    (0 ≤ (heuristic_from_opencv hypot exp faces eyes density).level ∧
      (heuristic_from_opencv hypot exp faces eyes density).level ≤ 1) := by
  constructor
  · cases detections with
    | nil => norm_num [accurate_from_dlib]
    | cons r rest =>
      simp only [accurate_from_dlib]
      split
      · norm_num
      · exact ⟨clamp01_nonneg _, clamp01_le_one _⟩
  · cases faces with
    | nil => norm_num [heuristic_from_opencv]
    | cons f rest => exact ⟨clamp01_nonneg _, clamp01_le_one _⟩

/-- C5: whenever, after appending the new raw value, a feature's history
has fewer than 5 samples or a degenerate zero-width range (max = min, e.g.
identical values), `_normalize_points` returns `(0.5, "initializing")`. -/
theorem normalize_warmup (tanh : ℚ → ℚ) (hists : FeatHists) (v : ℚ) (k : String)
    (h : (hists k ++ [v]).length < 5 ∨
      npMax (hists k ++ [v]) = npMin (hists k ++ [v])) :
    (normalize_points tanh hists v k).1 = (1/2, "initializing") := by
  have hcond : (updatedHistory hists v k).length < 5 ∨
      npMax (updatedHistory hists v k) = npMin (updatedHistory hists v k) := by
    rcases h with hlen | heq
    · left
      have hng : ¬ (hists k ++ [v]).length > HISTORY_MAX_PER_FEATURE := by
        simp only [HISTORY_MAX_PER_FEATURE]
        omega
      unfold updatedHistory
      rw [if_neg hng]
      exact hlen
    · right
      have hall := all_eq_of_npMax_eq_npMin heq
      have hsub : updatedHistory hists v k ⊆ hists k ++ [v] := by
        unfold updatedHistory
        split
        · exact List.drop_subset _ _
        · exact fun x hx => hx
      have hne : updatedHistory hists v k ≠ [] := by
        unfold updatedHistory
        split
        · next hgt =>
          have hlen300 : (lastN HISTORY_MAX_PER_FEATURE (hists k ++ [v])).length =
              HISTORY_MAX_PER_FEATURE := by
            simp only [lastN, List.length_drop]
            omega
          intro hnil
          rw [hnil] at hlen300
          simp [HISTORY_MAX_PER_FEATURE] at hlen300
        · simp
      have hmax := npMax_const hne fun x hx => hall x (hsub hx)
      have hmin := npMin_const hne fun x hx => hall x (hsub hx)
      rw [hmax, hmin]
  simp only [normalize_points]
  rw [if_pos hcond]

/-- Witness for `normalize_warmup`: a first insertion (history length 1). -/
theorem normalize_warmup_witness :
    ((initHists "eyebrow" ++ [(0 : ℚ)]).length < 5 ∨
      npMax (initHists "eyebrow" ++ [(0 : ℚ)]) = npMin (initHists "eyebrow" ++ [(0 : ℚ)])) ∧
    (normalize_points (fun q => q) initHists 0 "eyebrow").1 = (1/2, "initializing") :=
  ⟨Or.inl (by decide),
    normalize_warmup (fun q => q) initHists 0 "eyebrow" (Or.inl (by decide))⟩

/-- C10: every `_normalize_points` call appends the raw value to its
feature's stored history (the stored history becomes the last ≤300 entries
of the old history with the value appended — so warm-up calls count toward
the 5-sample threshold) and leaves every other feature's history unchanged. -/
theorem normalize_appends (tanh : ℚ → ℚ) (hists : FeatHists) (v : ℚ) (k : String) :
    (normalize_points tanh hists v k).2 k =
      lastN HISTORY_MAX_PER_FEATURE (hists k ++ [v]) ∧
    ∀ k', k' ≠ k → (normalize_points tanh hists v k).2 k' = hists k' := by
  rw [normalize_points_snd]
  constructor
  · simp [updatedHistory_eq_lastN]
  · intro k' hk'
    exact if_neg hk'

/-- Witness for `normalize_appends`: inserting under `"a"` stores the
appended value and leaves `"b"` untouched. -/
theorem normalize_appends_witness :
    ("b" : String) ≠ "a" ∧
    (normalize_points (fun q => q) initHists 1 "a").2 "a" =
      lastN HISTORY_MAX_PER_FEATURE (initHists "a" ++ [(1 : ℚ)]) ∧
    (normalize_points (fun q => q) initHists 1 "a").2 "b" = initHists "b" :=
  ⟨by decide, (normalize_appends (fun q => q) initHists 1 "a").1,
    (normalize_appends (fun q => q) initHists 1 "a").2 "b" (by decide)⟩

/-- C6: after any sequence of `_normalize_points` calls starting from the
empty histories, each feature's stored history is exactly the last ≤300
raw values inserted under that key (oldest evicted first: it is a suffix
of the insertion sequence) and its length never exceeds 300. -/
theorem feature_history_bound (tanh : ℚ → ℚ) (calls : List (ℚ × String)) (k : String) :
    applyCalls tanh calls initHists k = lastN 300 (insertedFor k calls) ∧
    applyCalls tanh calls initHists k <:+ insertedFor k calls ∧
    (applyCalls tanh calls initHists k).length ≤ 300 := by
  have h := applyCalls_key tanh calls initHists k (by simp [initHists])
  simp only [initHists, List.nil_append] at h
  refine ⟨h, ?_, ?_⟩
  · rw [h]
    exact List.drop_suffix _ _
  · rw [h]
    exact lastN_length_le _ _

/-- Helper for the SSE stream claim: the emitted list has pairwise-distinct
neighbours, and its head differs from the seeding `last` value. -/
theorem sseEmits_chain (last : Option Summary) (polls : List Summary) :
    List.Chain' (fun a b => a ≠ b) (sseEmits last polls) ∧
    ∀ s ∈ (sseEmits last polls).head?, some s ≠ last := by
  induction polls generalizing last with
  | nil => exact ⟨List.chain'_nil, by simp [sseEmits]⟩
  | cons s rest ih =>
    simp only [sseEmits]
    by_cases hc : some s ≠ last
    · rw [if_pos hc]
      refine ⟨List.chain'_cons'.mpr ⟨?_, (ih (some s)).1⟩, ?_⟩
      · intro y hy
        have hys := (ih (some s)).2 y hy
        exact fun hsy => hys (congrArg some hsy.symm)
      · intro x hx
        have hxs : s = x := by simpa using hx
        subst hxs
        exact hc
    · rw [if_neg hc]
      exact ih last

/-- C9: over every polled sequence of Summary values, the SSE generator of
`/api/stream` never yields two identical consecutive payloads. -/
theorem sse_no_consecutive_duplicates (polls : List Summary) :
    List.Chain' (fun a b => a ≠ b) (sseEmits none polls) :=
  (sseEmits_chain none polls).1

/-- C8: invoking `start_camera` while the session is already running
returns the `already_running` status (HTTP 200 with the current index) and
leaves the session state — device handle, flags and worker count — exactly
as it was; the device opener is never consulted. -/
theorem start_while_running (openSucceeds : ℤ → Bool) (reqIndex : Option ℤ)
    (st : SessState) (h : st.running = true) :
    start_camera openSucceeds reqIndex st =
      (.already_running st.cam_index 200, st) := by
  simp [start_camera, h]

/-- Witness for `start_while_running`: a concrete running session. -/
theorem start_while_running_witness :
    (SessState.mk (some 0) true 0 1).running = true ∧
    start_camera (fun _ => true) none (SessState.mk (some 0) true 0 1) =
      (.already_running 0 200, SessState.mk (some 0) true 0 1) :=
  ⟨rfl, start_while_running (fun _ => true) none (SessState.mk (some 0) true 0 1) rfl⟩

end StressDetection
